import Mathlib

/-!
Verification of the Agent Federation Control Plane (AFCP) core of
edcet/complete-homelab-orchestrator against its natural-language spec.

The development shallowly embeds the two source modules the claims are
about:

* src/src/mcp/agent-federation.ts  (class AgentFederation)
* src/src/security/rate-limiter.ts (class RateLimiter)

Conventions of the embedding:

* JavaScript numbers used as timestamps and counters become integers;
  loadAvg and the quorum fraction become rationals (the source only ever
  combines them by +, *, min, max and comparison, all exact here).
* The mutable `Map` fields become association lists in insertion order,
  matching the iteration order of a JavaScript Map; overwriting a key
  keeps its position, inserting a new key appends.
* Methods become pure functions from the old state (plus the current
  time, which the source reads from Date.now()) to the new state and/or
  the returned value.  Transport outcomes (fetch succeeding or failing)
  are passed in as explicit parameters.
-/

namespace AFCP

/-- Health states of a federated agent (source: type HealthStatus). -/
inductive HealthStatus where
  | active
  | degraded
  | offline
deriving DecidableEq

/-- A registered agent record (source: interface FederatedAgent). -/
structure FederatedAgent where
  id : String
  capabilities : List String
  endpoint : String
  healthStatus : HealthStatus
  lastHeartbeat : ℤ
  loadAvg : ℚ
deriving DecidableEq

/-- Routing options (source: interface RouteOptions); absent optional
fields are `none` / `[]`. -/
structure RouteOptions where
  timeoutMs : Option ℤ := none
  preferAgents : List String := []
  stickySessionKey : Option String := none
  requireHealthy : Option Bool := none
deriving DecidableEq

/-- Consensus options (source: interface ConsensusOptions). -/
structure ConsensusOptions where
  quorum : Option ℚ := none
  timeoutMs : Option ℤ := none
deriving DecidableEq

/-- The agents map of AgentFederation, as a list in Map insertion order.
Every entry is keyed by its own id field, as in the source where
agents.set(agent.id, agent) is the only insertion. -/
abbrev Registry := List FederatedAgent

/-- One FNV-like mixing step of AgentFederation.stableHash: XOR in one
input value, then h := h + (h shl 1) + (h shl 4) + (h shl 7) + (h shl 8)
+ (h shl 24), all arithmetic mod 2^32 (in the source the reductions
happen through JavaScript 32-bit coercions; the sums are congruent). -/
def stableHashStep (h c : ℕ) : ℕ :=
  let x := h ^^^ c
  (x + (x <<< 1) + (x <<< 4) + (x <<< 7) + (x <<< 8) + (x <<< 24)) % 4294967296

/-- UTF-16 encoding of one code point, as the sequence of code units
that JavaScript charCodeAt iterates over. -/
def utf16EncodeChar (c : ℕ) : List ℕ :=
  if c < 65536 then [c]
  else [55296 + (c - 65536) / 1024, 56320 + (c - 65536) % 1024]

/-- UTF-16 code-unit sequence of a list of code points. -/
def utf16Encode (codepoints : List ℕ) : List ℕ :=
  (codepoints.map utf16EncodeChar).flatten

/-- UTF-8 encoding of one code point. -/
def utf8EncodeChar (c : ℕ) : List ℕ :=
  if c < 128 then [c]
  else if c < 2048 then [192 + c / 64, 128 + c % 64]
  else if c < 65536 then [224 + c / 4096, 128 + (c / 64) % 64, 128 + c % 64]
  else [240 + c / 262144, 128 + (c / 4096) % 64, 128 + (c / 64) % 64, 128 + c % 64]

/-- UTF-8 byte sequence of a list of code points. -/
def utf8Encode (codepoints : List ℕ) : List ℕ :=
  (codepoints.map utf8EncodeChar).flatten

/-- The code points of a string. -/
def codePoints (s : String) : List ℕ :=
  s.data.map Char.toNat

/-- AgentFederation.stableHash: folds stableHashStep over the UTF-16
code units of the input, because the source iterates
input.charCodeAt(i) for i below input.length. -/
def stableHash (input : String) : ℕ :=
  List.foldl stableHashStep 2166136261 (utf16Encode (codePoints input))

/-- The hash the spec declares normative for sticky sessions: the same
mixing loop, but over the UTF-8 bytes of the input. -/
def specFnvHash (input : String) : ℕ :=
  List.foldl stableHashStep 2166136261 (utf8Encode (codePoints input))

/-- Clamp to the unit interval, as Math.min(1, Math.max(0, x)). -/
def clamp01 (x : ℚ) : ℚ := min 1 (max 0 x)

/-- Lexicographic order on lists of naturals. -/
def lexLe : List ℕ → List ℕ → Bool
  | [], _ => true
  | _ :: _, [] => false
  | a :: as, b :: bs => if a < b then true else if b < a then false else lexLe as bs

/-- String comparison as JavaScript performs it: lexicographic on the
UTF-16 code units. -/
def strLe (a b : String) : Bool :=
  lexLe (utf16Encode (codePoints a)) (utf16Encode (codePoints b))

/-- Keep the first occurrence of each element, as building a Set from a
list does in JavaScript. -/
def dedupFirst : List String → List String :=
  go []
where
  go (seen : List String) : List String → List String
    | [] => []
    | x :: xs => if x ∈ seen then go seen xs else x :: go (x :: seen) xs

/-- Ascending sort of strings by code-unit order, as the default Array
sort on strings. -/
def sortStrings (l : List String) : List String :=
  List.insertionSort (fun a b => strLe a b = true) l

/-- Argument of upsertAgent: a FederatedAgent whose lastHeartbeat is
optional (source: Omit<FederatedAgent, 'lastHeartbeat'> with an optional
lastHeartbeat added back). -/
structure UpsertArg where
  id : String
  capabilities : List String
  endpoint : String
  healthStatus : HealthStatus
  lastHeartbeat : Option ℤ := none
  loadAvg : ℚ
deriving DecidableEq

/-- Map.set keyed by the agent id: replace in place when the key exists,
append otherwise. -/
def mapSet (r : Registry) (a : FederatedAgent) : Registry :=
  if r.any (fun x => x.id == a.id) then
    r.map (fun x => if x.id = a.id then a else x)
  else r ++ [a]

/-- Lookup by id (Map.get keyed by id: the first matching entry). -/
def lookupAgent (r : Registry) (id : String) : Option FederatedAgent :=
  r.find? (fun a => a.id == id)

/-- AgentFederation.upsertAgent: normalize the record (dedupe + sort
capabilities, clamp loadAvg, default lastHeartbeat from the existing
record and then from now) and store it under its id.  The rational
loadAvg models every real-valued input; the source would additionally
store NaN unchanged (Math.min(1, Math.max(0, NaN)) is NaN), which this
type cannot express — the JSNum model below covers that case. -/
def upsertAgent (r : Registry) (agent : UpsertArg) (now : ℤ) : Registry :=
  let existing := lookupAgent r agent.id
  let normalized : FederatedAgent :=
    { id := agent.id
      capabilities := sortStrings (dedupFirst agent.capabilities)
      endpoint := agent.endpoint
      healthStatus := agent.healthStatus
      lastHeartbeat := agent.lastHeartbeat.getD ((existing.map (fun e => e.lastHeartbeat)).getD now)
      loadAvg := clamp01 agent.loadAvg }
  mapSet r normalized

/-- Heartbeat update argument (source: Partial pick of healthStatus and
loadAvg). -/
structure HeartbeatUpdate where
  healthStatus : Option HealthStatus := none
  loadAvg : Option ℚ := none
deriving DecidableEq

/-- AgentFederation.heartbeat: no-op on unknown id; otherwise stamp
lastHeartbeat and overwrite the supplied fields, clamping loadAvg
(over the reals; a NaN update would be stored as NaN by the source,
see the JSNum model below). -/
def heartbeat (r : Registry) (id : String) (update : HeartbeatUpdate) (now : ℤ) : Registry :=
  r.map (fun a =>
    if a.id = id then
      let a1 := { a with lastHeartbeat := now }
      let a2 := match update.healthStatus with
        | some h => { a1 with healthStatus := h }
        | none => a1
      match update.loadAvg with
        | some l => { a2 with loadAvg := clamp01 l }
        | none => a2
    else a)

/-- Filter argument of listAgents. -/
structure ListFilter where
  capabilities : List String := []
  healthStatus : Option HealthStatus := none

/-- AgentFederation.listAgents: filter by health, then by required
capabilities, then sort ascending by id.  The source compares ids with
localeCompare; the model uses code-unit order, which agrees with it on
the ASCII ids appearing in this development. -/
def listAgents (r : Registry) (filter : ListFilter) : List FederatedAgent :=
  let l1 := match filter.healthStatus with
    | some h => r.filter (fun a => a.healthStatus == h)
    | none => r
  let l2 := if filter.capabilities.isEmpty then l1
    else l1.filter (fun a => filter.capabilities.all (fun c => a.capabilities.contains c))
  List.insertionSort (fun a b => strLe a.id b.id = true) l2

/-- The candidate list selectAgent works on: agents advertising the
capability, kept in registry (Map insertion) order, restricted to the
active ones when requireHealthy holds. -/
def stickyCandidates (r : Registry) (capability : String) (requireHealthy : Bool) : Registry :=
  let eligible := r.filter (fun a => a.capabilities.contains capability)
  if requireHealthy then eligible.filter (fun a => a.healthStatus == HealthStatus.active)
  else eligible

/-- AgentFederation.selectAgent: candidate filtering, then the sticky
path, then the preference path, then least load.  The sticky branch is
guarded by JavaScript truthiness of opts.stickySessionKey, which is
false both for an absent key and for the empty string, so a
present-but-empty key falls through to the preference and least-load
paths; the guard is modelled as the default-filled key being
non-empty.  The source's stable sort by loadAvg followed by taking
index 0 is the head of a stable insertion sort. -/
def selectAgent (r : Registry) (capability : String) (opts : RouteOptions) : Option FederatedAgent :=
  let requireHealthy := opts.requireHealthy.getD true
  let healthy := stickyCandidates r capability requireHealthy
  if healthy.length = 0 then none
  else if opts.stickySessionKey.getD "" ≠ "" then
    healthy.get? (stableHash (opts.stickySessionKey.getD "") % healthy.length)
  else if opts.preferAgents.length ≠ 0 then
    let preferred := healthy.filter (fun a => opts.preferAgents.contains a.id)
    if preferred.length ≠ 0 then
      (List.insertionSort (fun a b => a.loadAvg ≤ b.loadAvg) preferred).head?
    else (List.insertionSort (fun a b => a.loadAvg ≤ b.loadAvg) healthy).head?
  else (List.insertionSort (fun a b => a.loadAvg ≤ b.loadAvg) healthy).head?

/-- Outcome of the Transport call made by routeRequest. -/
inductive RouteOutcome where
  | success
  | failure
deriving DecidableEq

/-- The registry mutation routeRequest performs on the selected agent:
multiplicative decay of loadAvg on success; on any error, loadAvg + 0.2
capped at 1 and healthStatus set to degraded unconditionally. -/
def applyRouteFeedback (r : Registry) (capability : String) (opts : RouteOptions)
    (outcome : RouteOutcome) : Registry :=
  match selectAgent r capability opts with
  | none => r
  | some agent =>
    r.map (fun x =>
      if x.id = agent.id then
        match outcome with
        | RouteOutcome.success => { x with loadAvg := max 0 (min 1 (x.loadAvg * (0.9 : ℚ))) }
        | RouteOutcome.failure =>
          { x with loadAvg := min 1 (x.loadAvg + (0.2 : ℚ)),
                   healthStatus := HealthStatus.degraded }
      else x)

/-- One entry of the decisions list returned by reachConsensus (the
transported value / error text are payload data and are elided). -/
structure ConsensusEntry where
  agentId : String
  ok : Bool
deriving DecidableEq

/-- Result of reachConsensus. -/
structure ConsensusResult where
  decided : Bool
  decisions : List ConsensusEntry
deriving DecidableEq

/-- AgentFederation.reachConsensus, with the per-agent Transport
outcome supplied by the oracle function: candidates are the active
agents advertising the capability sorted by id; decided is the strict
comparison okCount / N > quorum with quorum defaulting to 0.5. -/
def reachConsensus (r : Registry) (capability : String) (opts : ConsensusOptions)
    (outcomes : String → Bool) : ConsensusResult :=
  let candidates := listAgents r { capabilities := [capability], healthStatus := some HealthStatus.active }
  if candidates.isEmpty then { decided := false, decisions := [] }
  else
    let quorumFrac := opts.quorum.getD (0.5 : ℚ)
    let decisions := candidates.map (fun a => { agentId := a.id, ok := outcomes a.id })
    let okCount := (decisions.filter (fun d => d.ok)).length
    { decided := decide ((okCount : ℚ) / (candidates.length : ℚ) > quorumFrac)
      decisions := decisions }

/-- The registry mutation reachConsensus performs: each successful
candidate gets its loadAvg decayed by 0.95 and clamped (the source
applies no feedback on a failed sub-call). -/
def applyConsensusFeedback (r : Registry) (capability : String) (outcomes : String → Bool) : Registry :=
  let candidates := listAgents r { capabilities := [capability], healthStatus := some HealthStatus.active }
  r.map (fun x =>
    if candidates.any (fun c => c.id == x.id) && outcomes x.id then
      { x with loadAvg := max 0 (min 1 (x.loadAvg * (0.95 : ℚ))) }
    else x)

/-- AgentFederation.monitorTick: mark agents with a stale heartbeat
offline and decay every loadAvg by loadAvg * 0.98 - 0.01 floored at 0. -/
def monitorTick (r : Registry) (now : ℤ) : Registry :=
  r.map (fun a =>
    let a1 := if now - a.lastHeartbeat > 60000 then { a with healthStatus := HealthStatus.offline } else a
    { a1 with loadAvg := max 0 (a1.loadAvg * (0.98 : ℚ) - (0.01 : ℚ)) })

/-! ## RateLimiter (src/src/security/rate-limiter.ts)

The key generator hashes the client id through SHA-256 before the map
lookup; both checkLimit and getStatus pass the client id through the
same generator, so the functions below are stated directly on the
generated key.  The clients map is, like the registry, an association
list in Map insertion order. -/

/-- RateLimitConfig (windowMs, maxRequests, burstSize). -/
structure RateLimitConfig where
  windowMs : ℤ
  maxRequests : ℤ
  burstSize : ℤ
deriving DecidableEq

/-- RateLimitResult: the Decision returned to the caller.  retryAfter
is none when the source leaves the field undefined. -/
structure RateLimitResult where
  allowed : Bool
  remaining : ℤ
  resetTime : ℤ
  retryAfter : Option ℤ := none
deriving DecidableEq

/-- ClientMetrics: the per-client stored record. -/
structure ClientMetrics where
  requests : ℤ
  windowStart : ℤ
  tokens : ℤ
  lastRefill : ℤ
deriving DecidableEq

/-- The clients map, in Map insertion order. -/
abbrev ClientMap := List (String × ClientMetrics)

/-- Map.get on the clients map. -/
def lookupClient (m : ClientMap) (key : String) : Option ClientMetrics :=
  (m.find? (fun p => p.1 == key)).map (fun p => p.2)

/-- Map.set on the clients map: replace in place, else append. -/
def setClient (m : ClientMap) (key : String) (c : ClientMetrics) : ClientMap :=
  if m.any (fun p => p.1 == key) then
    m.map (fun p => if p.1 = key then (key, c) else p)
  else m ++ [(key, c)]

/-- RateLimiter.getOrCreateClient: the stored record, or a fresh one
with a full bucket.  (The source also inserts the fresh record into the
map; checkLimit below stores the final record under the key, which has
the same net effect on the map.) -/
def getOrCreateClient (cfg : RateLimitConfig) (m : ClientMap) (key : String) (now : ℤ) : ClientMetrics :=
  (lookupClient m key).getD
    { requests := 0, windowStart := now, tokens := cfg.burstSize, lastRefill := now }

/-- RateLimiter.refillTokens: tokensToAdd = floor(elapsed * burstSize /
windowMs); when positive, add it capped at burstSize and advance
lastRefill. -/
def refillTokens (cfg : RateLimitConfig) (c : ClientMetrics) (now : ℤ) : ClientMetrics :=
  let timeSinceLastRefill := now - c.lastRefill
  let refillRate : ℚ := (cfg.burstSize : ℚ) / (cfg.windowMs : ℚ)
  let tokensToAdd : ℤ := Int.floor ((timeSinceLastRefill : ℚ) * refillRate)
  if 0 < tokensToAdd then
    { c with tokens := min cfg.burstSize (c.tokens + tokensToAdd), lastRefill := now }
  else c

/-- RateLimiter.checkLimit: refill, conditional window reset (the
source's test is client.windowStart < now - windowMs, a strict
comparison), admission test requests < maxRequests and tokens > 0,
consumption on admit, then the reported Decision and the updated map. -/
def checkLimit (cfg : RateLimitConfig) (m : ClientMap) (key : String) (now : ℤ) :
    RateLimitResult × ClientMap :=
  let client0 := getOrCreateClient cfg m key now
  let client1 := refillTokens cfg client0 now
  let client2 := if client1.windowStart < now - cfg.windowMs then
      { client1 with requests := 0, windowStart := now }
    else client1
  let allowed := decide (client2.requests < cfg.maxRequests) && decide (0 < client2.tokens)
  let client3 := if allowed then
      { client2 with requests := client2.requests + 1, tokens := client2.tokens - 1 }
    else client2
  let remaining := max 0 (cfg.maxRequests - client3.requests)
  let resetTime := client3.windowStart + cfg.windowMs
  ({ allowed := allowed
     remaining := remaining
     resetTime := resetTime
     retryAfter := if allowed then none else some (Int.ceil (((resetTime - now : ℤ) : ℚ) / 1000)) },
   setClient m key client3)

/-- RateLimiter.getStatus: reads the stored record as-is (no refill, no
window reset, no creation); for a missing record reports a full window
starting now. -/
def getStatus (cfg : RateLimitConfig) (m : ClientMap) (key : String) (now : ℤ) : RateLimitResult :=
  match lookupClient m key with
  | none =>
    { allowed := true, remaining := cfg.maxRequests, resetTime := now + cfg.windowMs, retryAfter := none }
  | some client =>
    let remaining := max 0 (cfg.maxRequests - client.requests)
    let resetTime := client.windowStart + cfg.windowMs
    { allowed := decide (0 < remaining) && decide (0 < client.tokens)
      remaining := remaining
      resetTime := resetTime
      retryAfter := if remaining = 0 then some (Int.ceil (((resetTime - now : ℤ) : ℚ) / 1000)) else none }

/-! ## Reference-level model of the agents map

listAgents returns a fresh array whose elements are the very agent
objects stored in the map; heartbeat and the feedback paths mutate
those objects in place, while upsertAgent installs a freshly allocated
object.  To reason about this sharing, RefRegistry models the object
heap explicitly: heap indices play the role of object references, the
slots list maps each id to the reference currently stored under it. -/

/-- The agents map with object identity made explicit. -/
structure RefRegistry where
  heap : List FederatedAgent
  slots : List (String × ℕ)
deriving DecidableEq

/-- The field values currently visible through a list of references
(previously handed out by refListAgents). -/
def refView (rr : RefRegistry) (refs : List ℕ) : List (Option FederatedAgent) :=
  refs.map (fun i => rr.heap.get? i)

/-- listAgents at the reference level: the references of the matching
agents, sorted by the id of the object they point to.  The returned
array itself is fresh, but its elements are shared references. -/
def refListAgents (rr : RefRegistry) (filter : ListFilter) : List ℕ :=
  let entries := rr.slots.filterMap (fun p => (rr.heap.get? p.2).map (fun a => (p.2, a)))
  let l1 := match filter.healthStatus with
    | some h => entries.filter (fun e => e.2.healthStatus == h)
    | none => entries
  let l2 := if filter.capabilities.isEmpty then l1
    else l1.filter (fun e => filter.capabilities.all (fun c => e.2.capabilities.contains c))
  (List.insertionSort (fun a b => strLe a.2.id b.2.id = true) l2).map (fun e => e.1)

/-- upsertAgent at the reference level: a fresh object is allocated
(appended to the heap) and the slot for the id is pointed at it; no
existing heap cell is written. -/
def refUpsert (rr : RefRegistry) (agent : UpsertArg) (now : ℤ) : RefRegistry :=
  let existing := (rr.slots.find? (fun p => p.1 == agent.id)).bind (fun p => rr.heap.get? p.2)
  let normalized : FederatedAgent :=
    { id := agent.id
      capabilities := sortStrings (dedupFirst agent.capabilities)
      endpoint := agent.endpoint
      healthStatus := agent.healthStatus
      lastHeartbeat := agent.lastHeartbeat.getD ((existing.map (fun e => e.lastHeartbeat)).getD now)
      loadAvg := clamp01 agent.loadAvg }
  let newRef := rr.heap.length
  { heap := rr.heap ++ [normalized]
    slots := if rr.slots.any (fun p => p.1 == agent.id) then
        rr.slots.map (fun p => if p.1 = agent.id then (p.1, newRef) else p)
      else rr.slots ++ [(agent.id, newRef)] }

/-- heartbeat at the reference level: the object the slot points at is
mutated in place (the heap cell is overwritten). -/
def refHeartbeat (rr : RefRegistry) (id : String) (update : HeartbeatUpdate) (now : ℤ) : RefRegistry :=
  match rr.slots.find? (fun p => p.1 == id) with
  | none => rr
  | some p =>
    match rr.heap.get? p.2 with
    | none => rr
    | some a =>
      let a1 := { a with lastHeartbeat := now }
      let a2 := match update.healthStatus with
        | some h => { a1 with healthStatus := h }
        | none => a1
      let a3 := match update.loadAvg with
        | some l => { a2 with loadAvg := clamp01 l }
        | none => a2
      { rr with heap := rr.heap.set p.2 a3 }

/-! ## Spec-side comparison definitions

Each definition below transcribes the words of a spec claim (not the
source), to be compared against the embedded source functions. -/

/-- The sticky selection rule as the spec states it: sort the candidate
set by id ascending, index it by the normative hash of the key mod N. -/
def specSelectSticky (r : Registry) (capability : String) (requireHealthy : Bool) (key : String) :
    Option FederatedAgent :=
  let candidates := stickyCandidates r capability requireHealthy
  let sorted := List.insertionSort (fun a b => strLe a.id b.id = true) candidates
  sorted.get? (specFnvHash key % sorted.length)

/-- The refill step as the spec states it: tokensToAdd =
floor((now - lastRefill) * burst / windowLength); when positive, cap at
burst and advance lastRefill. -/
def specRefill (cfg : RateLimitConfig) (c : ClientMetrics) (now : ℤ) : ClientMetrics :=
  let tokensToAdd : ℤ := Int.floor (((now - c.lastRefill : ℤ) : ℚ) * (cfg.burstSize : ℚ) / (cfg.windowMs : ℚ))
  if 0 < tokensToAdd then
    { c with tokens := min cfg.burstSize (c.tokens + tokensToAdd), lastRefill := now }
  else c

/-- Check on a stored record as claim C3 states it, with the window
reset condition windowStart + windowLength less-or-equal now: returns
whether the request is admitted together with the updated record. -/
def specCheckClaim (cfg : RateLimitConfig) (c : ClientMetrics) (now : ℤ) : Bool × ClientMetrics :=
  let c1 := specRefill cfg c now
  let c2 := if c1.windowStart + cfg.windowMs ≤ now then { c1 with requests := 0, windowStart := now } else c1
  let admitted := decide (c2.requests < cfg.maxRequests) && decide (1 ≤ c2.tokens)
  (admitted,
   if admitted then { c2 with requests := c2.requests + 1, tokens := c2.tokens - 1 } else c2)

/-- Check on a stored record with the reset condition the source
actually uses, windowStart + windowLength strictly below now; otherwise
word-for-word the claim's description. -/
def specCheckAmended (cfg : RateLimitConfig) (c : ClientMetrics) (now : ℤ) : Bool × ClientMetrics :=
  let c1 := specRefill cfg c now
  let c2 := if c1.windowStart + cfg.windowMs < now then { c1 with requests := 0, windowStart := now } else c1
  let admitted := decide (c2.requests < cfg.maxRequests) && decide (1 ≤ c2.tokens)
  (admitted,
   if admitted then { c2 with requests := c2.requests + 1, tokens := c2.tokens - 1 } else c2)

/-- The Decision checkLimit would compute on a stored record at the
same instant without its consumption step: refill and window reset as
in the source, admission test, but requests is not incremented before
remaining is reported.  This is claim C8's comparison object for Peek. -/
def checkNoConsume (cfg : RateLimitConfig) (c : ClientMetrics) (now : ℤ) : RateLimitResult :=
  let c1 := refillTokens cfg c now
  let c2 := if c1.windowStart < now - cfg.windowMs then { c1 with requests := 0, windowStart := now } else c1
  let allowed := decide (c2.requests < cfg.maxRequests) && decide (0 < c2.tokens)
  let remaining := max 0 (cfg.maxRequests - c2.requests)
  let resetTime := c2.windowStart + cfg.windowMs
  { allowed := allowed
    remaining := remaining
    resetTime := resetTime
    retryAfter := if allowed then none else some (Int.ceil (((resetTime - now : ℤ) : ℚ) / 1000)) }

/-! ## Operations that write loadAvg, for the clamping invariant -/

/-- The registry-mutating operations of AgentFederation that write
loadAvg (claim C9): upsert, heartbeat, dispatcher feedback on success
or failure, consensus feedback, and the monitor tick. -/
inductive RegistryOp where
  | upsertOp (arg : UpsertArg) (now : ℤ)
  | heartbeatOp (id : String) (update : HeartbeatUpdate) (now : ℤ)
  | routeFeedbackOp (capability : String) (opts : RouteOptions) (outcome : RouteOutcome)
  | consensusFeedbackOp (capability : String) (outcomes : String → Bool)
  | tickOp (now : ℤ)

/-- Interpretation of a RegistryOp by the embedded source functions. -/
def applyOp : RegistryOp → Registry → Registry
  | RegistryOp.upsertOp arg now, r => upsertAgent r arg now
  | RegistryOp.heartbeatOp id update now, r => heartbeat r id update now
  | RegistryOp.routeFeedbackOp capability opts outcome, r => applyRouteFeedback r capability opts outcome
  | RegistryOp.consensusFeedbackOp capability outcomes, r => applyConsensusFeedback r capability outcomes
  | RegistryOp.tickOp now, r => monitorTick r now

/-- Every stored loadAvg lies in the closed unit interval. -/
def loadInv (r : Registry) : Prop :=
  ∀ a ∈ r, 0 ≤ a.loadAvg ∧ a.loadAvg ≤ 1

/-! ## Concrete fixtures used by counterexamples and witnesses -/

/-- Agent a: active, capability x, load one half. -/
def agentA : FederatedAgent :=
  { id := "a", capabilities := ["x"], endpoint := "epA", healthStatus := HealthStatus.active,
    lastHeartbeat := 0, loadAvg := Rat.divInt 1 2 }

/-- Agent b: active, capabilities x and y, load three tenths. -/
def agentB : FederatedAgent :=
  { id := "b", capabilities := ["x", "y"], endpoint := "epB", healthStatus := HealthStatus.active,
    lastHeartbeat := 0, loadAvg := Rat.divInt 3 10 }

/-- Agent c: offline, capability x. -/
def agentOff : FederatedAgent :=
  { id := "c", capabilities := ["x"], endpoint := "epC", healthStatus := HealthStatus.offline,
    lastHeartbeat := 0, loadAvg := Rat.divInt 1 2 }

/-- Agents for the four-candidate consensus scenario. -/
def consAgent (id : String) : FederatedAgent :=
  { id := id, capabilities := ["decide"], endpoint := "ep", healthStatus := HealthStatus.active,
    lastHeartbeat := 0, loadAvg := 0 }

/-- Registry holding b before a (that insertion order is what the Map
iterates in). -/
def regBA : Registry := [agentB, agentA]

/-- Registry holding a before b (insertion order agrees with id
order). -/
def regAB : Registry := [agentA, agentB]

/-- Four active agents advertising capability decide. -/
def reg4 : Registry := [consAgent "a", consAgent "b", consAgent "c", consAgent "d"]

/-- Transport oracle in which exactly agents a and b succeed. -/
def outcomes2of4 (id : String) : Bool := id == "a" || id == "b"

/-- Single active agent advertising capability decide. -/
def reg1 : Registry := [consAgent "a"]

/-- Upsert argument with an empty id and an out-of-range loadAvg, which
the claim says must be rejected with InvalidInput. -/
def emptyIdArg : UpsertArg :=
  { id := "", capabilities := ["q"], endpoint := "ep", healthStatus := HealthStatus.active,
    loadAvg := 2 }

/-- Rate limit config for the window-boundary counterexample. -/
def cfgWin : RateLimitConfig := { windowMs := 1000, maxRequests := 1, burstSize := 1 }

/-- Stored client at the exact window boundary: windowStart +
windowMs = now for now = 1000. -/
def clientWin : ClientMetrics := { requests := 1, windowStart := 0, tokens := 1, lastRefill := 1000 }

/-- Clients map holding clientWin under key u. -/
def mapWin : ClientMap := [("u", clientWin)]

/-- Rate limit config for the Peek divergence counterexample. -/
def cfgPeek : RateLimitConfig := { windowMs := 1000, maxRequests := 3, burstSize := 3 }

/-- Stored client reached from a fresh record by three admitted checks
at time 0: window and bucket both exhausted, no refill yet.  At time
1100 a Check resets the window and refills, while Peek reads the
record as-is. -/
def clientPeek : ClientMetrics := { requests := 3, windowStart := 0, tokens := 0, lastRefill := 0 }

/-- Clients map holding clientPeek under key u. -/
def mapPeek : ClientMap := [("u", clientPeek)]

/-- Stored client needing neither refill nor window reset at now =
1000. -/
def clientIdle : ClientMetrics := { requests := 1, windowStart := 1000, tokens := 2, lastRefill := 1000 }

/-- Clients map holding clientIdle under key u. -/
def mapIdle : ClientMap := [("u", clientIdle)]

/-- Reference registry holding one agent object. -/
def rrOne : RefRegistry := { heap := [agentA], slots := [("a", 0)] }

/-! ## JavaScript number semantics of the loadAvg write sites

The registry model above uses exact rationals, which cover every
real-valued input but cannot represent NaN.  The source performs no
validation (see C5), and JavaScript's Math.min and Math.max return NaN
whenever an argument is NaN, so the write-site clamp
Math.min(1, Math.max(0, x)) stores NaN unchanged.  The small model
below embeds exactly that arithmetic. -/

/-- A JavaScript number as it matters to loadAvg: a real value or
NaN. -/
inductive JSNum where
  | num (q : ℚ)
  | nan
deriving DecidableEq

/-- Math.max: NaN if either argument is NaN. -/
def jsMax : JSNum → JSNum → JSNum
  | JSNum.num a, JSNum.num b => JSNum.num (max a b)
  | _, _ => JSNum.nan

/-- Math.min: NaN if either argument is NaN. -/
def jsMin : JSNum → JSNum → JSNum
  | JSNum.num a, JSNum.num b => JSNum.num (min a b)
  | _, _ => JSNum.nan

/-- JavaScript multiplication restricted to these values: NaN
propagates. -/
def jsMul : JSNum → JSNum → JSNum
  | JSNum.num a, JSNum.num b => JSNum.num (a * b)
  | _, _ => JSNum.nan

/-- The clamp the source applies when upsertAgent and heartbeat write
loadAvg: Math.min(1, Math.max(0, x)) over JavaScript numbers. -/
def jsClamp01 (x : JSNum) : JSNum := jsMin (JSNum.num 1) (jsMax (JSNum.num 0) x)

/-- The success-feedback write site of routeRequest,
Math.max(0, Math.min(1, loadAvg * 0.9)), over JavaScript numbers. -/
def jsSuccessFeedback (x : JSNum) : JSNum :=
  jsMax (JSNum.num 0) (jsMin (JSNum.num 1) (jsMul x (JSNum.num (0.9 : ℚ))))

/-- Membership of a stored JavaScript number in the closed unit
interval; NaN is in no interval. -/
def jsInUnit : JSNum → Prop
  | JSNum.num q => 0 ≤ q ∧ q ≤ 1
  | JSNum.nan => False

/-! ## Helper lemmas -/

theorem head?_mem {α : Type _} {l : List α} {a : α} (h : l.head? = some a) : a ∈ l := by
  cases l with
  | nil => simp at h
  | cons x xs =>
    simp only [List.head?_cons, Option.some.injEq] at h
    exact h ▸ List.mem_cons_self x xs

theorem mem_of_mem_stickyCandidates {r : Registry} {capability : String} {rh : Bool}
    {a : FederatedAgent} (h : a ∈ stickyCandidates r capability rh) : a ∈ r := by
  unfold stickyCandidates at h
  split at h
  · exact List.mem_of_mem_filter (List.mem_of_mem_filter h)
  · exact List.mem_of_mem_filter h

theorem selectAgent_mem {r : Registry} {capability : String} {opts : RouteOptions}
    {a : FederatedAgent} (h : selectAgent r capability opts = some a) : a ∈ r := by
  simp only [selectAgent] at h
  split at h
  · exact absurd h (by simp)
  · split at h
    · exact mem_of_mem_stickyCandidates (List.get?_mem h)
    · split at h
      · split at h
        · exact mem_of_mem_stickyCandidates
            (List.mem_of_mem_filter ((List.perm_insertionSort _ _).mem_iff.mp (head?_mem h)))
        · exact mem_of_mem_stickyCandidates ((List.perm_insertionSort _ _).mem_iff.mp (head?_mem h))
      · exact mem_of_mem_stickyCandidates ((List.perm_insertionSort _ _).mem_iff.mp (head?_mem h))

/-! ## C1: sticky selection -/

/-- C1 counterexample: with agents inserted in the order b, a (both
active and advertising x), the source indexes the candidate list in
Map insertion order, not sorted by id, so the selected agent differs
from the claim's candidates-sorted-by-id rule. -/
theorem selectAgent_sticky_unsorted_cex :
    selectAgent regBA "x" { stickySessionKey := some "k" } ≠
      specSelectSticky regBA "x" true "k" := by decide

/-- C1 amended: for a present and non-empty sticky key (the source's
truthiness guard treats an empty key as absent), the claim's formula
holds when the registry's insertion order is already ascending by id
(and the key is one on which the source hash and the normative hash
agree, which claim C6 shows is the case for ASCII keys); in general
the source indexes the candidate list in insertion order without
sorting. -/
theorem selectAgent_sticky_sorted (r : Registry) (capability key : String) (opts : RouteOptions)
    (hkey : opts.stickySessionKey = some key)
    (hkey0 : key ≠ "")
    (hhash : stableHash key = specFnvHash key)
    (hsorted : List.Sorted (fun a b : FederatedAgent => strLe a.id b.id = true) r)
    (hne : stickyCandidates r capability (opts.requireHealthy.getD true) ≠ []) :
    selectAgent r capability opts =
      specSelectSticky r capability (opts.requireHealthy.getD true) key := by
  have hcand : List.Sorted (fun a b : FederatedAgent => strLe a.id b.id = true)
      (stickyCandidates r capability (opts.requireHealthy.getD true)) := by
    unfold stickyCandidates
    split
    · exact (hsorted.filter _).filter _
    · exact hsorted.filter _
  have hlen : (stickyCandidates r capability (opts.requireHealthy.getD true)).length ≠ 0 :=
    fun hz => hne (List.length_eq_zero.mp hz)
  simp only [selectAgent, specSelectSticky, hkey, Option.getD_some,
    List.Sorted.insertionSort_eq hcand, if_neg hlen, if_pos hkey0, hhash]

/-- C1 witness: a concrete registry inserted in id order, where the
amended sticky rule picks agent b for the non-empty key user-42. -/
theorem selectAgent_sticky_sorted_witness :
    selectAgent regAB "x" { stickySessionKey := some "user-42" } =
      specSelectSticky regAB "x" true "user-42" :=
  selectAgent_sticky_sorted regAB "x" "user-42" { stickySessionKey := some "user-42" }
    (by rfl) (by decide) (by decide) (by decide) (by decide)

/-! ## C2: dispatcher failure feedback -/

theorem lookupAgent_map_id_preserving (r : Registry) (id : String)
    (u : FederatedAgent → FederatedAgent) (hu : ∀ x, (u x).id = x.id) :
    lookupAgent (r.map u) id = (lookupAgent r id).map u := by
  induction r with
  | nil => rfl
  | cons x xs ih =>
    simp only [lookupAgent, List.map_cons, List.find?_cons, hu x] at *
    cases hb : (x.id == id) with
    | true => rfl
    | false => exact ih

theorem lookupAgent_eq_of_mem_nodup {r : Registry} {a : FederatedAgent}
    (hnd : (r.map FederatedAgent.id).Nodup) (ha : a ∈ r) :
    lookupAgent r a.id = some a := by
  induction r with
  | nil => simp at ha
  | cons x xs ih =>
    simp only [List.map_cons, List.nodup_cons] at hnd
    rcases List.mem_cons.mp ha with rfl | hmem
    · simp [lookupAgent, List.find?_cons]
    · have hne : (x.id == a.id) = false := by
        refine beq_eq_false_iff_ne.mpr fun he => hnd.1 ?_
        exact he ▸ List.mem_map_of_mem FederatedAgent.id hmem
      simp only [lookupAgent, List.find?_cons, hne]
      exact ih hnd.2 hmem

/-- C2 counterexample: an offline agent selected with requireHealthy
false whose Transport call errors ends up degraded, not offline; the
claim says its health must still be offline afterwards. -/
theorem routeFeedback_offline_cex :
    (lookupAgent (applyRouteFeedback [agentOff] "x" { requireHealthy := some false }
        RouteOutcome.failure) "c").map FederatedAgent.healthStatus =
      some HealthStatus.degraded ∧
    agentOff.healthStatus = HealthStatus.offline := by decide

/-- C2 amended: on a Transport error the selected agent's loadAvg
becomes clamp(loadAvg + 0.2, 0, 1) and its healthStatus is set to
degraded unconditionally, whatever its previous health was (the source
does not special-case offline agents). -/
theorem routeFeedback_failure (r : Registry) (capability : String) (opts : RouteOptions)
    (a : FederatedAgent) (hnd : (r.map FederatedAgent.id).Nodup)
    (hsel : selectAgent r capability opts = some a) (h0 : 0 ≤ a.loadAvg) :
    lookupAgent (applyRouteFeedback r capability opts RouteOutcome.failure) a.id =
      some { a with loadAvg := clamp01 (a.loadAvg + 0.2),
                    healthStatus := HealthStatus.degraded } := by
  have hmem := selectAgent_mem hsel
  unfold applyRouteFeedback
  rw [hsel]
  rw [lookupAgent_map_id_preserving _ _ _ (fun x => by split <;> rfl)]
  rw [lookupAgent_eq_of_mem_nodup hnd hmem]
  have hcl : clamp01 (a.loadAvg + 0.2) = min 1 (a.loadAvg + 0.2) := by
    unfold clamp01
    rw [max_eq_right (by linarith)]
  simp [hcl]

/-- C2 witness: concrete one-agent registry with capability x; the
failure feedback stores load 0.7 and health degraded. -/
theorem routeFeedback_failure_witness :
    lookupAgent (applyRouteFeedback [agentA] "x" {} RouteOutcome.failure) "a" =
      some { agentA with loadAvg := clamp01 (agentA.loadAvg + 0.2),
                         healthStatus := HealthStatus.degraded } :=
  routeFeedback_failure [agentA] "x" {} agentA (by decide) (by decide) (by decide)

/-! ## C3: admission Check -/

theorem find?_map_replace_of_any (key : String) (c : ClientMetrics) :
    ∀ m : ClientMap, m.any (fun p => p.1 == key) = true →
      (m.map (fun p => if p.1 = key then (key, c) else p)).find? (fun p => p.1 == key) =
        some (key, c) := by
  intro m h
  induction m with
  | nil => simp at h
  | cons p ps ih =>
    by_cases hp : p.1 = key
    · simp [hp]
    · have hb : (p.1 == key) = false := beq_eq_false_iff_ne.mpr hp
      simp only [List.any_cons, hb, Bool.false_or] at h
      simp only [List.map_cons, if_neg hp, List.find?_cons, hb]
      exact ih h

theorem lookupClient_setClient (m : ClientMap) (key : String) (c : ClientMetrics) :
    lookupClient (setClient m key c) key = some c := by
  unfold setClient
  split
  case isTrue h =>
    unfold lookupClient
    rw [find?_map_replace_of_any key c m h]
    rfl
  case isFalse h =>
    have hnone : m.find? (fun p => p.1 == key) = none := by
      rw [List.find?_eq_none]
      intro x hx hpx
      exact h (List.any_eq_true.mpr ⟨x, hx, hpx⟩)
    unfold lookupClient
    rw [List.find?_append, hnone]
    simp

theorem refillTokens_eq_specRefill (cfg : RateLimitConfig) (c : ClientMetrics) (now : ℤ) :
    refillTokens cfg c now = specRefill cfg c now := by
  unfold refillTokens specRefill
  rw [mul_div_assoc]

/-- C3 counterexample: at the exact window boundary (windowStart +
windowMs = now) the claim's reset condition fires and admits the
request, but the source's strict comparison does not reset, so the
request is rejected. -/
theorem checkLimit_window_boundary_cex :
    (checkLimit cfgWin mapWin "u" 1000).1.allowed = false ∧
    (specCheckClaim cfgWin clientWin 1000).1 = true := by
  constructor
  · norm_num [checkLimit, getOrCreateClient, lookupClient, refillTokens, cfgWin, mapWin,
      clientWin, List.find?]
  · norm_num [specCheckClaim, specRefill, cfgWin, clientWin]

/-- C3 amended: checkLimit behaves exactly as the claim describes
except that the sliding window is reset when windowStart + windowLength
is strictly below now (not at equality): refill by
floor((now - lastRefill) * burst / windowLength) capped at burst with
lastRefill advanced only on a positive refill, admission iff
requests < maxRequests and tokens at least 1, and increment/decrement
on admit; the final record is stored under the client key. -/
theorem checkLimit_matches_amended_spec (cfg : RateLimitConfig) (m : ClientMap) (key : String)
    (now : ℤ) (c : ClientMetrics) (hc : lookupClient m key = some c) :
    (checkLimit cfg m key now).1.allowed = (specCheckAmended cfg c now).1 ∧
    lookupClient (checkLimit cfg m key now).2 key = some (specCheckAmended cfg c now).2 := by
  have hreset : ∀ ws : ℤ, (ws < now - cfg.windowMs) = (ws + cfg.windowMs < now) :=
    fun ws => propext (by omega)
  have htok : ∀ t : ℤ, (0 < t) = (1 ≤ t) := fun t => propext (by omega)
  have hget : getOrCreateClient cfg m key now = c := by
    simp [getOrCreateClient, hc]
  constructor
  · simp only [checkLimit, specCheckAmended, hget, refillTokens_eq_specRefill, hreset, htok]
  · simp only [checkLimit, specCheckAmended, hget, refillTokens_eq_specRefill, hreset, htok,
      lookupClient_setClient]

/-- C3 witness: the boundary state above satisfies the amended
description (both sides reject). -/
theorem checkLimit_matches_amended_spec_witness :
    (checkLimit cfgWin mapWin "u" 1000).1.allowed = (specCheckAmended cfgWin clientWin 1000).1 ∧
    lookupClient (checkLimit cfgWin mapWin "u" 1000).2 "u" =
      some (specCheckAmended cfgWin clientWin 1000).2 :=
  checkLimit_matches_amended_spec cfgWin mapWin "u" 1000 clientWin (by decide)

/-! ## C8: Peek versus Check -/

/-- C8 counterexample on a reachable state: three admitted Check calls
at time 0, starting from the empty clients map, produce exactly the
stored record clientPeek (first conjunct); at time 1100 a Check on
that record resets the expired window and refills the bucket and so
admits, while getStatus reads the record as-is and reports not
allowed — Peek does not return the Decision Check would compute. -/
theorem getStatus_differs_cex :
    (checkLimit cfgPeek (checkLimit cfgPeek (checkLimit cfgPeek [] "u" 0).2 "u" 0).2 "u" 0).2 =
      mapPeek ∧
    (getStatus cfgPeek mapPeek "u" 1100).allowed = false ∧
    (checkNoConsume cfgPeek clientPeek 1100).allowed = true := by
  have h1 : (checkLimit cfgPeek [] "u" 0).2 =
      [("u", { requests := 1, windowStart := 0, tokens := 2, lastRefill := 0 })] := by
    norm_num [checkLimit, getOrCreateClient, lookupClient, refillTokens, setClient, cfgPeek,
      List.find?]
  have h2 : (checkLimit cfgPeek
      [("u", { requests := 1, windowStart := 0, tokens := 2, lastRefill := 0 })] "u" 0).2 =
      [("u", { requests := 2, windowStart := 0, tokens := 1, lastRefill := 0 })] := by
    norm_num [checkLimit, getOrCreateClient, lookupClient, refillTokens, setClient, cfgPeek,
      List.find?]
  have h3 : (checkLimit cfgPeek
      [("u", { requests := 2, windowStart := 0, tokens := 1, lastRefill := 0 })] "u" 0).2 =
      mapPeek := by
    norm_num [checkLimit, getOrCreateClient, lookupClient, refillTokens, setClient, cfgPeek,
      mapPeek, clientPeek, List.find?]
  refine ⟨by rw [h1, h2, h3], ?_, ?_⟩
  · norm_num [getStatus, lookupClient, cfgPeek, mapPeek, clientPeek, List.find?]
  · norm_num [checkNoConsume, refillTokens, cfgPeek, clientPeek]

/-- C8 amended: getStatus never refills, resets a window, or touches
the map (it is a pure read returning only a Decision); its allowed,
remaining and resetAt agree with what Check would compute without its
consumption step exactly on records that need no token refill and no
window reset at that instant (retryAfter can still differ: Check bases
it on the admission test, getStatus on remaining alone). -/
theorem getStatus_agrees_when_idle (cfg : RateLimitConfig) (m : ClientMap) (key : String)
    (now : ℤ) (c : ClientMetrics) (hc : lookupClient m key = some c)
    (hnorefill : refillTokens cfg c now = c)
    (hnoreset : ¬ (c.windowStart < now - cfg.windowMs)) :
    (getStatus cfg m key now).allowed = (checkNoConsume cfg c now).allowed ∧
    (getStatus cfg m key now).remaining = (checkNoConsume cfg c now).remaining ∧
    (getStatus cfg m key now).resetTime = (checkNoConsume cfg c now).resetTime := by
  have hrem : (0 < max 0 (cfg.maxRequests - c.requests)) = (c.requests < cfg.maxRequests) :=
    propext (by omega)
  simp only [getStatus, hc, checkNoConsume, hnorefill, if_neg hnoreset, hrem]
  exact ⟨trivial, trivial, trivial⟩

/-- C8 witness: a record needing neither refill nor reset, on which
getStatus and unconsumed Check agree. -/
theorem getStatus_agrees_when_idle_witness :
    (getStatus cfgPeek mapIdle "u" 1000).allowed = (checkNoConsume cfgPeek clientIdle 1000).allowed ∧
    (getStatus cfgPeek mapIdle "u" 1000).remaining =
      (checkNoConsume cfgPeek clientIdle 1000).remaining ∧
    (getStatus cfgPeek mapIdle "u" 1000).resetTime =
      (checkNoConsume cfgPeek clientIdle 1000).resetTime :=
  getStatus_agrees_when_idle cfgPeek mapIdle "u" 1000 clientIdle (by decide)
    (by norm_num [refillTokens, cfgPeek, clientIdle]) (by decide)

/-! ## C4: consensus quorum -/

/-- C4: decided is the strict comparison of the success fraction
against the quorum (default one half); with 2 successes among 4
candidates at quorum one half the call does not decide, and with a
single candidate it decides exactly when that candidate succeeds. -/
theorem reachConsensus_quorum :
    (∀ (r : Registry) (capability : String) (opts : ConsensusOptions) (outcomes : String → Bool),
      listAgents r { capabilities := [capability], healthStatus := some HealthStatus.active } ≠ [] →
      ((reachConsensus r capability opts outcomes).decided = true ↔
        (((reachConsensus r capability opts outcomes).decisions.filter
            (fun d => d.ok)).length : ℚ) /
          (((reachConsensus r capability opts outcomes).decisions.length : ℚ)) >
          opts.quorum.getD (0.5 : ℚ))) ∧
    (reachConsensus reg4 "decide" { quorum := some (0.5 : ℚ) } outcomes2of4).decided = false ∧
    (∀ b : Bool,
      (reachConsensus reg1 "decide" { quorum := some (0.5 : ℚ) } (fun _ => b)).decided = b) := by
  refine ⟨?_, ?_, ?_⟩
  · intro r capability opts outcomes hne
    have hif : (listAgents r { capabilities := [capability], healthStatus := some HealthStatus.active }).isEmpty = false := by
      simpa [List.isEmpty_iff] using hne
    simp only [reachConsensus, hif, Bool.false_eq_true, if_false, List.length_map,
      decide_eq_true_eq]
  · have hcand : listAgents reg4 { capabilities := ["decide"], healthStatus := some HealthStatus.active } = [consAgent "a", consAgent "b", consAgent "c", consAgent "d"] := by decide
    have hdec : ([consAgent "a", consAgent "b", consAgent "c", consAgent "d"] : Registry).map (fun a => ({ agentId := a.id, ok := outcomes2of4 a.id } : ConsensusEntry)) = [⟨"a", true⟩, ⟨"b", true⟩, ⟨"c", false⟩, ⟨"d", false⟩] := by decide
    simp only [reachConsensus, hcand, hdec]
    norm_num
  · intro b
    have hcand : listAgents reg1 { capabilities := ["decide"], healthStatus := some HealthStatus.active } = [consAgent "a"] := by decide
    cases b <;> simp only [reachConsensus, hcand] <;> norm_num [consAgent]

/-- C4 witness: the quorum equivalence instantiated at the
single-agent registry with an all-success transport. -/
theorem reachConsensus_quorum_witness :
    (reachConsensus reg1 "decide" { quorum := some (0.5 : ℚ) } (fun _ => true)).decided = true ↔
      (((reachConsensus reg1 "decide" { quorum := some (0.5 : ℚ) } (fun _ => true)).decisions.filter
          (fun d => d.ok)).length : ℚ) /
        (((reachConsensus reg1 "decide" { quorum := some (0.5 : ℚ) }
          (fun _ => true)).decisions.length : ℚ)) > (0.5 : ℚ) :=
  reachConsensus_quorum.1 reg1 "decide" { quorum := some (0.5 : ℚ) } (fun _ => true) (by decide)

/-! ## C5 and C10: upsert -/

theorem find?_mapSet_of_any (a : FederatedAgent) :
    ∀ r : Registry, r.any (fun x => x.id == a.id) = true →
      (r.map (fun x => if x.id = a.id then a else x)).find? (fun x => x.id == a.id) = some a := by
  intro r h
  induction r with
  | nil => simp at h
  | cons x xs ih =>
    by_cases hx : x.id = a.id
    · simp [hx]
    · have hb : (x.id == a.id) = false := beq_eq_false_iff_ne.mpr hx
      simp only [List.any_cons, hb, Bool.false_or] at h
      simp only [List.map_cons, if_neg hx, List.find?_cons, hb]
      exact ih h

theorem lookupAgent_mapSet (r : Registry) (a : FederatedAgent) :
    lookupAgent (mapSet r a) a.id = some a := by
  unfold mapSet
  split
  case isTrue h => exact find?_mapSet_of_any a r h
  case isFalse h =>
    have hnone : r.find? (fun x => x.id == a.id) = none := by
      rw [List.find?_eq_none]
      intro x hx hpx
      exact h (List.any_eq_true.mpr ⟨x, hx, hpx⟩)
    unfold lookupAgent
    rw [List.find?_append, hnone]
    simp

/-- C5 counterexample: upserting a record with an empty id (and an
out-of-range loadAvg) into the empty registry does not fail and does
change the registry, contradicting the claimed InvalidInput rejection
with the registry left unchanged. -/
theorem upsertAgent_no_validation_cex :
    upsertAgent [] emptyIdArg 0 ≠ [] := by decide

/-- C5 amended: upsertAgent performs no input validation and never
fails: for every input record, including one with an empty id or an
out-of-range loadAvg, the registry afterwards stores a record under
the given id, with capabilities normalized, loadAvg clamped and the
health taken verbatim. -/
theorem upsertAgent_never_fails (r : Registry) (arg : UpsertArg) (now : ℤ) :
    ∃ a, lookupAgent (upsertAgent r arg now) arg.id = some a ∧
      a.loadAvg = clamp01 arg.loadAvg ∧
      a.capabilities = sortStrings (dedupFirst arg.capabilities) ∧
      a.healthStatus = arg.healthStatus := by
  exact ⟨_, lookupAgent_mapSet r _, rfl, rfl, rfl⟩

/-- C10: upserting over an existing id replaces the stored record:
endpoint, health and the normalized (sorted, deduplicated) capability
list come from the argument, the old capability set is discarded, and
lastHeartbeat is the argument's when supplied and otherwise the
existing record's. -/
theorem upsertAgent_replaces_existing (r : Registry) (arg : UpsertArg) (now : ℤ)
    (old : FederatedAgent) (hold : lookupAgent r arg.id = some old) :
    lookupAgent (upsertAgent r arg now) arg.id =
      some { id := arg.id
             capabilities := sortStrings (dedupFirst arg.capabilities)
             endpoint := arg.endpoint
             healthStatus := arg.healthStatus
             lastHeartbeat := arg.lastHeartbeat.getD old.lastHeartbeat
             loadAvg := clamp01 arg.loadAvg } := by
  unfold upsertAgent
  rw [hold]
  simpa using lookupAgent_mapSet r _

/-- C10 witness: overwriting agent a (capability x) with a record
carrying different capabilities and no heartbeat keeps the stored
lastHeartbeat and replaces the capability set. -/
theorem upsertAgent_replaces_existing_witness :
    lookupAgent (upsertAgent regAB
      { id := "a", capabilities := ["z", "q", "z"], endpoint := "ep2",
        healthStatus := HealthStatus.degraded, loadAvg := 0 } 99) "a" =
      some { id := "a"
             capabilities := sortStrings (dedupFirst ["z", "q", "z"])
             endpoint := "ep2"
             healthStatus := HealthStatus.degraded
             lastHeartbeat := (none : Option ℤ).getD agentA.lastHeartbeat
             loadAvg := clamp01 0 } :=
  upsertAgent_replaces_existing regAB
    { id := "a", capabilities := ["z", "q", "z"], endpoint := "ep2",
      healthStatus := HealthStatus.degraded, loadAvg := 0 } 99 agentA (by decide)

/-! ## C6: the sticky-session hash -/

theorem utf8Encode_eq_of_ascii (l : List ℕ) (h : ∀ c ∈ l, c < 128) : utf8Encode l = l := by
  induction l with
  | nil => rfl
  | cons c cs ih =>
    have hc : c < 128 := h c (List.mem_cons_self c cs)
    have hcs : ∀ x ∈ cs, x < 128 := fun x hx => h x (List.mem_cons_of_mem c hx)
    have ihcs := ih hcs
    simp only [utf8Encode, List.map_cons, List.flatten_cons, utf8EncodeChar, if_pos hc] at *
    simp [ihcs]

theorem utf16Encode_eq_of_ascii (l : List ℕ) (h : ∀ c ∈ l, c < 128) : utf16Encode l = l := by
  induction l with
  | nil => rfl
  | cons c cs ih =>
    have hc : c < 65536 := lt_trans (h c (List.mem_cons_self c cs)) (by norm_num)
    have hcs : ∀ x ∈ cs, x < 128 := fun x hx => h x (List.mem_cons_of_mem c hx)
    have ihcs := ih hcs
    simp only [utf16Encode, List.map_cons, List.flatten_cons, utf16EncodeChar, if_pos hc] at *
    simp [ihcs]

/-- C6 counterexample: on a non-ASCII input the source hash (over
UTF-16 code units, via charCodeAt) differs from the normative mix over
UTF-8 bytes. -/
theorem stableHash_not_utf8_cex : stableHash "é" ≠ specFnvHash "é" := by decide

/-- C6 amended: stableHash applies the specified FNV-like 32-bit mix
to the UTF-16 code units of the input (charCodeAt values), not to its
UTF-8 bytes; the two coincide exactly on ASCII inputs. -/
theorem stableHash_eq_spec_on_ascii (s : String) (h : ∀ c ∈ s.data, c.toNat < 128) :
    stableHash s = specFnvHash s := by
  have hcp : ∀ c ∈ codePoints s, c < 128 := by
    intro c hc
    rcases List.mem_map.mp hc with ⟨ch, hch, rfl⟩
    exact h ch hch
  unfold stableHash specFnvHash
  rw [utf16Encode_eq_of_ascii _ hcp, utf8Encode_eq_of_ascii _ hcp]

/-- C6 witness: the two hashes agree on the ASCII key user-42. -/
theorem stableHash_eq_spec_on_ascii_witness : stableHash "user-42" = specFnvHash "user-42" :=
  stableHash_eq_spec_on_ascii "user-42" (by decide)

/-! ## C7: List snapshots and aliasing -/

/-- C7 counterexample: the agent records in a previously returned
listAgents array are the live objects of the registry; a later
heartbeat mutates them in place, so the field values seen through the
returned list change. -/
theorem refListAgents_not_snapshot_cex :
    refView (refHeartbeat rrOne "a" {} 5) (refListAgents rrOne {}) ≠
      refView rrOne (refListAgents rrOne {}) := by decide

/-- C7 amended: the array returned by listAgents is itself fresh, and
upsertAgent installs a freshly allocated record object without writing
any existing one, so an upsert after List leaves the previously
returned elements unchanged; but heartbeat, dispatcher feedback and
monitor ticks mutate the shared record objects in place, so the
returned list is not a snapshot against those operations. -/
theorem refUpsert_preserves_snapshot (rr : RefRegistry) (arg : UpsertArg) (now : ℤ)
    (refs : List ℕ) (h : ∀ i ∈ refs, i < rr.heap.length) :
    refView (refUpsert rr arg now) refs = refView rr refs := by
  unfold refView refUpsert
  exact List.map_congr_left fun i hi => List.get?_append (h i hi)

/-- C7 witness: upserting over id a does not change what the
previously returned reference list shows. -/
theorem refUpsert_preserves_snapshot_witness :
    refView (refUpsert rrOne emptyIdArg 0) (refListAgents rrOne {}) =
      refView rrOne (refListAgents rrOne {}) :=
  refUpsert_preserves_snapshot rrOne emptyIdArg 0 (refListAgents rrOne {}) (by decide)

/-! ## C9: loadAvg stays in the unit interval -/

theorem clamp01_nonneg (x : ℚ) : 0 ≤ clamp01 x :=
  le_min zero_le_one (le_max_left 0 x)

theorem clamp01_le_one (x : ℚ) : clamp01 x ≤ 1 :=
  min_le_left 1 (max 0 x)

theorem mem_mapSet {r : Registry} {a b : FederatedAgent} (hb : b ∈ mapSet r a) :
    b ∈ r ∨ b = a := by
  unfold mapSet at hb
  split at hb
  · rcases List.mem_map.mp hb with ⟨x, hx, rfl⟩
    split
    · right; rfl
    · left; exact hx
  · rcases List.mem_append.mp hb with hmem | hmem
    · left; exact hmem
    · right; simpa using hmem

/-- Supporting restriction for C9: over real-valued (non-NaN) inputs,
every operation of the federation that writes loadAvg (upsert,
heartbeat, dispatcher success or failure feedback, consensus feedback,
monitor tick) keeps every stored loadAvg inside the closed unit
interval.  This locates the failure of claim C9 exactly at NaN inputs,
which the rational model cannot express and loadAvg_nan_stored
exhibits. -/
theorem loadAvg_clamped (op : RegistryOp) (r : Registry) (h : loadInv r) :
    loadInv (applyOp op r) := by
  cases op with
  | upsertOp arg now =>
    intro a ha
    simp only [applyOp, upsertAgent] at ha
    rcases mem_mapSet ha with hmem | rfl
    · exact h a hmem
    · exact ⟨clamp01_nonneg _, clamp01_le_one _⟩
  | heartbeatOp id upd now =>
    intro a ha
    simp only [applyOp, heartbeat] at ha
    rcases List.mem_map.mp ha with ⟨x, hx, rfl⟩
    have hx2 := h x hx
    by_cases hid : x.id = id
    · cases hl : upd.loadAvg with
      | some l =>
        cases upd.healthStatus <;> simp only [if_pos hid, hl] <;>
          exact ⟨clamp01_nonneg _, clamp01_le_one _⟩
      | none =>
        cases upd.healthStatus <;> simp only [if_pos hid, hl] <;> exact hx2
    · simp only [if_neg hid]
      exact hx2
  | routeFeedbackOp capability opts outcome =>
    intro a ha
    simp only [applyOp, applyRouteFeedback] at ha
    cases hsel : selectAgent r capability opts with
    | none =>
      rw [hsel] at ha
      exact h a ha
    | some ag =>
      rw [hsel] at ha
      rcases List.mem_map.mp ha with ⟨x, hx, rfl⟩
      have hx2 := h x hx
      by_cases hid : x.id = ag.id
      · cases outcome with
        | success =>
          simp only [if_pos hid]
          exact ⟨le_max_left 0 _, max_le zero_le_one (min_le_left 1 _)⟩
        | failure =>
          simp only [if_pos hid]
          exact ⟨le_min zero_le_one (by linarith [hx2.1]), min_le_left 1 _⟩
      · simp only [if_neg hid]
        exact hx2
  | consensusFeedbackOp capability outcomes =>
    intro a ha
    simp only [applyOp, applyConsensusFeedback] at ha
    rcases List.mem_map.mp ha with ⟨x, hx, rfl⟩
    have hx2 := h x hx
    split
    · exact ⟨le_max_left 0 _, max_le zero_le_one (min_le_left 1 _)⟩
    · exact hx2
  | tickOp now =>
    intro a ha
    simp only [applyOp, monitorTick] at ha
    rcases List.mem_map.mp ha with ⟨x, hx, rfl⟩
    have hx2 := h x hx
    by_cases hstale : now - x.lastHeartbeat > 60000
    · simp only [if_pos hstale]
      exact ⟨le_max_left 0 _, max_le zero_le_one (by linarith [hx2.2])⟩
    · simp only [if_neg hstale]
      exact ⟨le_max_left 0 _, max_le zero_le_one (by linarith [hx2.2])⟩

/-- Witness for the real-valued restriction: a monitor tick on the
two-agent registry keeps every load in the unit interval. -/
theorem loadAvg_clamped_witness : loadInv (applyOp (RegistryOp.tickOp 99) regAB) :=
  loadAvg_clamped (RegistryOp.tickOp 99) regAB (by unfold loadInv; decide)

/-- C9: the source violates the claimed invariant at NaN, which its
unvalidated inputs admit (see C5): the clamp applied at the upsert and
heartbeat write sites, Math.min(1, Math.max(0, x)), maps NaN to NaN
because both functions propagate NaN, so the stored loadAvg is not in
the unit interval after such a write; the success-feedback decay also
keeps a stored NaN; and on every real input the same clamp agrees with
the rational model's clamp01, landing in [0,1]. -/
theorem loadAvg_nan_stored :
    ¬ jsInUnit (jsClamp01 JSNum.nan) ∧
    jsSuccessFeedback JSNum.nan = JSNum.nan ∧
    (∀ q : ℚ, jsClamp01 (JSNum.num q) = JSNum.num (clamp01 q)) := by
  refine ⟨?_, rfl, fun q => rfl⟩
  intro h
  simp only [jsClamp01, jsMax, jsMin, jsInUnit] at h

end AFCP
